import Mathlib

/-!
Shallow embedding of `src/sample/Util.Samples.Webs/Typings/util/angular/http-helper.ts`:
a fluent HTTP request builder (`HttpHelper` factory plus `HttpRequest` builder)
over an injected HTTP client.  JavaScript dynamic values relevant to the file
are modelled by `JSValue`; the Angular `HttpHeaders`/`HttpParams` containers are
modelled as ordered lists of name/value entries, whose `append` adds one entry
at the end and removes nothing, matching the immutable append of the Angular
classes.  The injected client is modelled by the `ClientCall` description of
the single call the builder dispatches to it.
-/

/-- JavaScript values as far as this file inspects them: `typeof` distinguishes
strings, objects (including `null`) and the rest; an object is carried as the
list of its own enumerable properties with string values, which is all the
`param` loop reads. -/
inductive JSValue where
  | undef : JSValue
  | jsNull : JSValue
  | bool : Bool → JSValue
  | num : Int → JSValue
  | str : String → JSValue
  | obj : List (String × String) → JSValue
deriving DecidableEq, Repr

/-- The JavaScript `typeof` operator on a `JSValue`; note `typeof null` is
`"object"`. -/
def jsTypeof : JSValue → String
  | JSValue.undef => "undefined"
  | JSValue.jsNull => "object"
  | JSValue.bool _ => "boolean"
  | JSValue.num _ => "number"
  | JSValue.str _ => "string"
  | JSValue.obj _ => "object"

/-- Own enumerable properties seen by a `for (let key in data)` loop guarded by
`hasOwnProperty`: the entries of an object, nothing for `null` or a
non-object. -/
def jsOwnEnumerable : JSValue → List (String × String)
  | JSValue.obj props => props
  | _ => []

/-- JavaScript truthiness of the optional string argument `value` of `param`:
absent (`undefined`) and the empty string are falsy, every other string is
truthy. -/
def jsTruthyOptStr : Option String → Bool
  | none => false
  | some s => s ≠ ""

/-- The string payload of a `JSValue` known to be a string. -/
def jsAsString : JSValue → String
  | JSValue.str s => s
  | _ => ""

/-- One hexadecimal digit (lowercase), for the `\uXXXX` escapes of
`JSON.stringify`. -/
def hexDigit (n : Nat) : Char :=
  if n < 10 then Char.ofNat (48 + n) else Char.ofNat (87 + n)

/-- Four hexadecimal digits of a code point below 2^16. -/
def hex4 (n : Nat) : String :=
  String.mk [hexDigit (n / 4096 % 16), hexDigit (n / 256 % 16),
    hexDigit (n / 16 % 16), hexDigit (n % 16)]

/-- How `JSON.stringify` escapes one character inside a string: quote and
backslash get a backslash, the named control characters get their short
escapes, the remaining control characters get `\uXXXX`, and everything else is
kept as is. -/
def jsonEscapeChar (c : Char) : String :=
  if c = Char.ofNat 34 then "\\\""
  else if c = Char.ofNat 92 then "\\\\"
  else if c = Char.ofNat 10 then "\\n"
  else if c = Char.ofNat 13 then "\\r"
  else if c = Char.ofNat 9 then "\\t"
  else if c = Char.ofNat 8 then "\\b"
  else if c = Char.ofNat 12 then "\\f"
  else if c.toNat < 32 then "\\u" ++ hex4 c.toNat
  else String.singleton c

/-- Platform primitive `JSON.stringify` applied to a string value: the
JSON-quoted form, i.e. the escaped characters between double quotes. -/
def jsonStringifyString (s : String) : String :=
  "\"" ++ String.join (s.data.map jsonEscapeChar) ++ "\""

/-- The TypeScript enum `HttpContentType` of the file. -/
inductive HttpContentType where
  | formUrlEncoded : HttpContentType
  | json : HttpContentType
deriving DecidableEq, Repr

/-- The TypeScript enum `HttpMethod` is a numeric enum (Get = 0, Post = 1,
Put = 2, Delete = 3); the builder field holding it is modelled as a `Nat` so
that method values outside the enum, possible in JavaScript, are covered by
the same dispatch. -/
def HttpMethod.get : Nat := 0

/-- Numeric value of `HttpMethod.Post`. -/
def HttpMethod.post : Nat := 1

/-- Numeric value of `HttpMethod.Put`. -/
def HttpMethod.put : Nat := 2

/-- Numeric value of `HttpMethod.Delete`. -/
def HttpMethod.delete : Nat := 3

/-- The options object `{ headers: this.headers, params: this.parameters }`
passed to every client call. -/
structure RequestOptions where
  headers : List (String × String)
  params : List (String × String)
deriving DecidableEq, Repr

/-- The one call the builder makes on the injected Angular `HttpClient`:
which client method, with which url, body (for post/put) and options. -/
inductive ClientCall where
  | get : String → RequestOptions → ClientCall
  | post : String → JSValue → RequestOptions → ClientCall
  | put : String → JSValue → RequestOptions → ClientCall
  | delete : String → RequestOptions → ClientCall
deriving DecidableEq, Repr

/-- State of an `HttpRequest<T>` builder: the constructor arguments
(`httpMethod`, `url`, `body`) plus the accumulated `headers`, the optional
content-type tag `httpContentType` (absent until `contentType` is called) and
the accumulated `parameters`. -/
structure HttpRequest where
  httpMethod : Nat
  url : String
  body : JSValue
  headers : List (String × String)
  httpContentType : Option HttpContentType
  parameters : List (String × String)
deriving DecidableEq, Repr

/-- The constructor of `HttpRequest`: stores method, url and body and starts
with empty `HttpHeaders` and `HttpParams` and no content-type tag. -/
def HttpRequest.new (httpMethod : Nat) (url : String) (body : JSValue) : HttpRequest :=
  { httpMethod := httpMethod, url := url, body := body,
    headers := [], httpContentType := none, parameters := [] }

/-- `HttpHelper.get(url)`. -/
def HttpHelper.get (url : String) : HttpRequest :=
  HttpRequest.new HttpMethod.get url JSValue.undef

/-- `HttpHelper.post(url, body?)`; an omitted body is `undefined`. -/
def HttpHelper.post (url : String) (body : JSValue) : HttpRequest :=
  HttpRequest.new HttpMethod.post url body

/-- `HttpHelper.put(url, body?)`; an omitted body is `undefined`. -/
def HttpHelper.put (url : String) (body : JSValue) : HttpRequest :=
  HttpRequest.new HttpMethod.put url body

/-- `HttpHelper.delete(url)`. -/
def HttpHelper.delete (url : String) : HttpRequest :=
  HttpRequest.new HttpMethod.delete url JSValue.undef

/-- `header(name, value)`: `this.headers = this.headers.append(name, value)`.
The Angular `append` returns a copy with the value added and nothing
removed. -/
def HttpRequest.header (r : HttpRequest) (name value : String) : HttpRequest :=
  { r with headers := r.headers ++ [(name, value)] }

/-- `contentType(contentType)`: stores the tag, overwriting a previous one. -/
def HttpRequest.contentType (r : HttpRequest) (ct : HttpContentType) : HttpRequest :=
  { r with httpContentType := some ct }

/-- `param(data)` / `param(name, value)`: if `typeof data === "object"` the
loop appends every own enumerable property (nothing for `null`); otherwise, if
`typeof data === "string" && value`, the single pair is appended (so an absent
or empty `value` appends nothing); any other argument leaves the builder
unchanged. -/
def HttpRequest.param (r : HttpRequest) (data : JSValue) (value : Option String) : HttpRequest :=
  if jsTypeof data = "object" then
    { r with parameters :=
        (jsOwnEnumerable data).foldl (fun ps kv => ps ++ [kv]) r.parameters }
  else if jsTypeof data = "string" then
    if jsTruthyOptStr value then
      { r with parameters := r.parameters ++ [(jsAsString data, value.getD "")] }
    else r
  else r

/-- `getContentType(contentType)`: the switch mapping the tag to its MIME
string; the default branch, taken in particular when the tag was never set,
yields `application/json`. -/
def getContentType : Option HttpContentType → String
  | some HttpContentType.formUrlEncoded => "application/x-www-form-urlencoded"
  | some HttpContentType.json => "application/json"
  | none => "application/json"

/-- `setContentType()`: appends the mapped MIME string as a `Content-Type`
header via `this.header(...)`. -/
def HttpRequest.setContentType (r : HttpRequest) : HttpRequest :=
  r.header "Content-Type" (getContentType r.httpContentType)

/-- The options object built inside `request()`. -/
def HttpRequest.options (r : HttpRequest) : RequestOptions :=
  { headers := r.headers, params := r.parameters }

/-- `getBody()`: a string body is replaced by its `JSON.stringify` form (the
`typeof this.body === "string"` test is exactly the string constructor);
every other body is returned unchanged. -/
def HttpRequest.getBody (r : HttpRequest) : JSValue :=
  match r.body with
  | JSValue.str s => JSValue.str (jsonStringifyString s)
  | b => b

/-- `request()`: first `setContentType()` mutates the headers, then the switch
on `httpMethod` dispatches to the client with the accumulated options; the
default branch of the switch issues a GET. -/
def HttpRequest.request (r : HttpRequest) : ClientCall :=
  let rs := r.setContentType
  let options := rs.options
  if rs.httpMethod = HttpMethod.get then ClientCall.get rs.url options
  else if rs.httpMethod = HttpMethod.post then ClientCall.post rs.url rs.getBody options
  else if rs.httpMethod = HttpMethod.put then ClientCall.put rs.url rs.getBody options
  else if rs.httpMethod = HttpMethod.delete then ClientCall.delete rs.url options
  else ClientCall.get rs.url options

/-- Result of `subscribe(handler, errorHandler, completeHandler)` on the
dispatched request: the call together with the three callbacks wired to it.
When `handle` returns no subscription, no request was dispatched and none of
the callbacks was wired, so none can fire. -/
structure Subscribed (A B C : Type) where
  call : ClientCall
  onSuccess : A
  onError : B
  onComplete : C

/-- `handle(handler, errorHandler?, beforeHandler?, completeHandler?)`: when
`beforeHandler` is present and returns strictly `false` it returns without
sending; otherwise it dispatches `request()` and subscribes the three
callbacks.  The value a `beforeHandler` returns is a `JSValue`, and the
strict-equality test compares it with the boolean `false`. -/
def HttpRequest.handle {A B C : Type} (r : HttpRequest) (handler : A) (errorHandler : B)
    (beforeHandler : Option (Unit → JSValue)) (completeHandler : C) :
    Option (Subscribed A B C) :=
  match beforeHandler with
  | some f =>
      if f () = JSValue.bool false then none
      else some ⟨r.request, handler, errorHandler, completeHandler⟩
  | none => some ⟨r.request, handler, errorHandler, completeHandler⟩

/-- The options of the one client call (every client method receives one). -/
def callOptions : ClientCall → RequestOptions
  | ClientCall.get _ o => o
  | ClientCall.post _ _ o => o
  | ClientCall.put _ _ o => o
  | ClientCall.delete _ o => o

/-- The body of the one client call (only post and put carry one). -/
def callBody : ClientCall → Option JSValue
  | ClientCall.post _ b _ => some b
  | ClientCall.put _ b _ => some b
  | _ => none

/-- Reference-passing view of the mutating builder methods, to state the
`return this` contract: a heap maps references to builder states, a method
writes the updated state into the cell of its receiver and returns the
receiver reference itself.  `headerRef` is `header`. -/
def HttpRequest.headerRef (heap : Nat → HttpRequest) (self : Nat) (name value : String) :
    Nat × (Nat → HttpRequest) :=
  (self, fun q => if q = self then (heap self).header name value else heap q)

/-- Reference-passing view of `contentType`; see `HttpRequest.headerRef`. -/
def HttpRequest.contentTypeRef (heap : Nat → HttpRequest) (self : Nat) (ct : HttpContentType) :
    Nat × (Nat → HttpRequest) :=
  (self, fun q => if q = self then (heap self).contentType ct else heap q)

/-- Reference-passing view of `param`; see `HttpRequest.headerRef`. -/
def HttpRequest.paramRef (heap : Nat → HttpRequest) (self : Nat) (data : JSValue)
    (value : Option String) : Nat × (Nat → HttpRequest) :=
  (self, fun q => if q = self then (heap self).param data value else heap q)

/-- The options the dispatched client call carries are those built after
`setContentType` ran, whatever the method value: every branch of the switch
passes the same options object. -/
theorem callOptions_request (r : HttpRequest) :
    callOptions r.request = (r.setContentType).options := by
  simp only [HttpRequest.request]
  repeat' split
  all_goals rfl

/-- Claim C1: when `handle` proceeds to send, the content-type tag is mapped
to its MIME string and applied as the `Content-Type` header: a builder whose
last `contentType` call set `FormUrlEncoded` sends
`application/x-www-form-urlencoded`; one whose tag is `Json` or was never set
sends `application/json`. -/
theorem claim_C1 (r : HttpRequest) :
    ((r.contentType HttpContentType.formUrlEncoded).handle () () none ()
        = some ⟨(r.contentType HttpContentType.formUrlEncoded).request, (), (), ()⟩)
  ∧ (callOptions ((r.contentType HttpContentType.formUrlEncoded).request)).headers
        = r.headers ++ [("Content-Type", "application/x-www-form-urlencoded")]
  ∧ (callOptions ((r.contentType HttpContentType.json).request)).headers
        = r.headers ++ [("Content-Type", "application/json")]
  ∧ (r.httpContentType = none →
      (callOptions r.request).headers
        = r.headers ++ [("Content-Type", "application/json")]) := by
  refine ⟨rfl, ?_, ?_, ?_⟩
  · rw [callOptions_request]; rfl
  · rw [callOptions_request]; rfl
  · intro h
    rw [callOptions_request]
    simp [HttpRequest.setContentType, HttpRequest.header, HttpRequest.options,
      getContentType, h]

/-- Claim C2: `handle` dispatches a request (returns a subscription on the
dispatched call) iff `beforeHandler` is absent or returns a value other than
strictly `false`; when `beforeHandler` is present and returns strictly
`false`, `handle` returns no subscription, so no network call is made and no
callback is wired. -/
theorem claim_C2 {A B C : Type} (r : HttpRequest) (handler : A) (errorHandler : B)
    (completeHandler : C) (bh : Option (Unit → JSValue)) :
    ((r.handle handler errorHandler bh completeHandler).isSome
        ↔ bh = none ∨ ∃ f, bh = some f ∧ f () ≠ JSValue.bool false)
  ∧ (∀ f, bh = some f → f () = JSValue.bool false →
      r.handle handler errorHandler bh completeHandler = none)
  ∧ (∀ s, r.handle handler errorHandler bh completeHandler = some s →
      s.call = r.request) := by
  cases bh with
  | none =>
      refine ⟨by simp [HttpRequest.handle], by simp, ?_⟩
      intro s hs
      simp [HttpRequest.handle] at hs
      rw [← hs]
  | some f =>
      by_cases hf : f () = JSValue.bool false
      · refine ⟨by simp [HttpRequest.handle, hf], by simp [HttpRequest.handle, hf], ?_⟩
        intro s hs
        simp [HttpRequest.handle, hf] at hs
      · refine ⟨by simp [HttpRequest.handle, hf], by simp [hf], ?_⟩
        intro s hs
        simp [HttpRequest.handle, hf] at hs
        rw [← hs]

/-- Claim C3: a string body is sent as its JSON-quoted form (the body carried
by the dispatched post/put call is `jsonStringifyString` of the string, and
for example the body `x` is sent as `"x"` with the quotes); a non-string body
is passed to the client unchanged. -/
theorem claim_C3 (url s : String) (b : JSValue) :
    jsonStringifyString "x" = "\"x\""
  ∧ callBody ((HttpHelper.post url (JSValue.str s)).request)
      = some (JSValue.str (jsonStringifyString s))
  ∧ callBody ((HttpHelper.put url (JSValue.str s)).request)
      = some (JSValue.str (jsonStringifyString s))
  ∧ (jsTypeof b ≠ "string" → callBody ((HttpHelper.post url b).request) = some b)
  ∧ (jsTypeof b ≠ "string" → callBody ((HttpHelper.put url b).request) = some b) := by
  refine ⟨by decide, rfl, rfl, ?_, ?_⟩ <;>
    · intro h
      cases b with
      | str a => exact absurd rfl h
      | _ => rfl

/-- Claim C4: the dispatch in `request` maps the bound method value to the
corresponding client call (Get to get, Post to post with the serialized body,
Put to put with the serialized body, Delete to delete), and any method value
outside the four enum values falls back to a GET call on the bound url with
the accumulated options. -/
theorem claim_C4 (r : HttpRequest) :
    (r.httpMethod = HttpMethod.get →
      r.request = ClientCall.get r.url (r.setContentType).options)
  ∧ (r.httpMethod = HttpMethod.post →
      r.request = ClientCall.post r.url r.getBody (r.setContentType).options)
  ∧ (r.httpMethod = HttpMethod.put →
      r.request = ClientCall.put r.url r.getBody (r.setContentType).options)
  ∧ (r.httpMethod = HttpMethod.delete →
      r.request = ClientCall.delete r.url (r.setContentType).options)
  ∧ (r.httpMethod ≠ HttpMethod.get → r.httpMethod ≠ HttpMethod.post →
      r.httpMethod ≠ HttpMethod.put → r.httpMethod ≠ HttpMethod.delete →
      r.request = ClientCall.get r.url (r.setContentType).options) := by
  refine ⟨?_, ?_, ?_, ?_, ?_⟩
  · intro h
    simp [HttpRequest.request, HttpRequest.setContentType, HttpRequest.header,
      HttpRequest.options, h, HttpMethod.get, HttpMethod.post, HttpMethod.put,
      HttpMethod.delete, HttpRequest.getBody]
  · intro h
    simp [HttpRequest.request, HttpRequest.setContentType, HttpRequest.header,
      HttpRequest.options, h, HttpMethod.get, HttpMethod.post, HttpMethod.put,
      HttpMethod.delete, HttpRequest.getBody]
  · intro h
    simp [HttpRequest.request, HttpRequest.setContentType, HttpRequest.header,
      HttpRequest.options, h, HttpMethod.get, HttpMethod.post, HttpMethod.put,
      HttpMethod.delete, HttpRequest.getBody]
  · intro h
    simp [HttpRequest.request, HttpRequest.setContentType, HttpRequest.header,
      HttpRequest.options, h, HttpMethod.get, HttpMethod.post, HttpMethod.put,
      HttpMethod.delete, HttpRequest.getBody]
  · intro h1 h2 h3 h4
    simp [HttpRequest.request, HttpRequest.setContentType, HttpRequest.header,
      HttpRequest.options, h1, h2, h3, h4]

/-- Claim C5: each factory operation returns a fresh builder bound to exactly
the corresponding method, the given url and the given body (`undefined` for
get and delete), with empty header and parameter sets and no content-type tag;
every url string is accepted unchanged (no validation). -/
theorem claim_C5 (url : String) (b : JSValue) :
    ((HttpHelper.get url).httpMethod = HttpMethod.get
      ∧ (HttpHelper.get url).url = url
      ∧ (HttpHelper.get url).body = JSValue.undef)
  ∧ ((HttpHelper.post url b).httpMethod = HttpMethod.post
      ∧ (HttpHelper.post url b).url = url
      ∧ (HttpHelper.post url b).body = b)
  ∧ ((HttpHelper.put url b).httpMethod = HttpMethod.put
      ∧ (HttpHelper.put url b).url = url
      ∧ (HttpHelper.put url b).body = b)
  ∧ ((HttpHelper.delete url).httpMethod = HttpMethod.delete
      ∧ (HttpHelper.delete url).url = url
      ∧ (HttpHelper.delete url).body = JSValue.undef)
  ∧ (HttpHelper.post url b).headers = []
  ∧ (HttpHelper.post url b).parameters = []
  ∧ (HttpHelper.post url b).httpContentType = none := by
  repeat' apply And.intro
  all_goals rfl

/-- Claim C6: an object argument appends every own enumerable property (the
object with a and b appends both pairs), the two-string form appends exactly
the single pair, a single string with no value appends nothing, and a
malformed argument (number, boolean, undefined) leaves the parameter set
unchanged and raises no error. -/
theorem claim_C6 (r : HttpRequest) (v : Option String) (n : Int) (bo : Bool) :
    (r.param (JSValue.obj [("a", "1"), ("b", "2")]) none).parameters
        = r.parameters ++ [("a", "1"), ("b", "2")]
  ∧ (r.param (JSValue.str "c") (some "3")).parameters = r.parameters ++ [("c", "3")]
  ∧ (r.param (JSValue.str "d") none).parameters = r.parameters
  ∧ (r.param (JSValue.num n) v).parameters = r.parameters
  ∧ (r.param (JSValue.bool bo) v).parameters = r.parameters
  ∧ (r.param JSValue.undef v).parameters = r.parameters := by
  refine ⟨?_, rfl, rfl, rfl, rfl, rfl⟩
  show (r.parameters ++ [("a", "1")]) ++ [("b", "2")]
      = r.parameters ++ [("a", "1"), ("b", "2")]
  simp

/-- Claim C7, counterexample: `param` with the name a and the empty string as
value appends nothing (the empty string is falsy in the `&& value` guard), so
the pair is not added, contrary to the claim that every string value,
including the empty one, is appended. -/
theorem claim_C7_counterexample :
    ¬ (((HttpHelper.get "u").param (JSValue.str "a") (some "")).parameters
        = (HttpHelper.get "u").parameters ++ [("a", "")]) := by decide

/-- Claim C7 as amended: for string arguments name and value with value a
nonempty (hence truthy) string, `param` appends exactly that single name/value
pair; with the empty string as value the guard fails and the parameter set is
unchanged. -/
theorem claim_C7_amended_ok (r : HttpRequest) (name v : String) (h : v ≠ "") :
    (r.param (JSValue.str name) (some v)).parameters = r.parameters ++ [(name, v)]
  ∧ (r.param (JSValue.str name) (some "")).parameters = r.parameters := by
  refine ⟨?_, rfl⟩
  simp [HttpRequest.param, jsTypeof, jsTruthyOptStr, jsAsString, h]

/-- Claim C7, witness: the amended statement applied at the concrete pair
c and 3. -/
theorem claim_C7_witness :
    ("3" : String) ≠ ""
  ∧ (((HttpHelper.get "u").param (JSValue.str "c") (some "3")).parameters
        = (HttpHelper.get "u").parameters ++ [("c", "3")]
    ∧ ((HttpHelper.get "u").param (JSValue.str "c") (some "")).parameters
        = (HttpHelper.get "u").parameters) :=
  ⟨by decide, claim_C7_amended_ok (HttpHelper.get "u") "c" "3" (by decide)⟩

/-- Claim C8: in the reference-passing view, each of the configuration
operations `header`, `contentType` and `param` returns the very reference it
was invoked on, and the state written into that cell is the mutated receiver
(identity-preserving fluent chaining). -/
theorem claim_C8 (heap : Nat → HttpRequest) (self : Nat) (name value : String)
    (ct : HttpContentType) (data : JSValue) (v : Option String) :
    (HttpRequest.headerRef heap self name value).1 = self
  ∧ (HttpRequest.contentTypeRef heap self ct).1 = self
  ∧ (HttpRequest.paramRef heap self data v).1 = self
  ∧ (HttpRequest.headerRef heap self name value).2 self = (heap self).header name value
  ∧ (HttpRequest.contentTypeRef heap self ct).2 self = (heap self).contentType ct
  ∧ (HttpRequest.paramRef heap self data v).2 self = (heap self).param data v := by
  refine ⟨rfl, rfl, rfl, ?_, ?_, ?_⟩ <;>
    simp [HttpRequest.headerRef, HttpRequest.contentTypeRef, HttpRequest.paramRef]

/-- Claim C9: the Content-Type finalization at send time appends the mapped
MIME value and removes nothing: the dispatched headers are exactly the
accumulated ones followed by the mapped entry, every header accumulated before
`handle` is still present, and a caller-set Content-Type header and the mapped
one are both carried. -/
theorem claim_C9 (r : HttpRequest) (v : String) :
    (callOptions r.request).headers
        = r.headers ++ [("Content-Type", getContentType r.httpContentType)]
  ∧ (∀ p, p ∈ r.headers → p ∈ (callOptions r.request).headers)
  ∧ ("Content-Type", v) ∈ (callOptions ((r.header "Content-Type" v).request)).headers
  ∧ ("Content-Type", getContentType r.httpContentType)
      ∈ (callOptions ((r.header "Content-Type" v).request)).headers := by
  refine ⟨?_, ?_, ?_, ?_⟩
  · simp [callOptions_request, HttpRequest.setContentType, HttpRequest.header,
      HttpRequest.options]
  · intro p hp
    rw [callOptions_request]
    simp only [HttpRequest.setContentType, HttpRequest.header, HttpRequest.options,
      List.mem_append]
    exact Or.inl hp
  · simp [callOptions_request, HttpRequest.setContentType, HttpRequest.header,
      HttpRequest.options]
  · simp [callOptions_request, HttpRequest.setContentType, HttpRequest.header,
      HttpRequest.options]

/-- Claim C10: `param` applied to `null` is safe and a no-op: `typeof null` is
the string object, so the call takes the object branch, iterates over no
properties and returns the builder unchanged. -/
theorem claim_C10 (r : HttpRequest) :
    jsTypeof JSValue.jsNull = "object" ∧ r.param JSValue.jsNull none = r :=
  ⟨rfl, rfl⟩
